import Mathlib

/-!
Shallow embedding of the SketchDDD code-generation engine and domain store
(`src/web/src/utils/codegen/{typescript,java,csharp,index}.ts`,
`src/web/src/stores/domainStore.ts`), together with a spec-modelled
validator (the validator itself lives in the Rust/WASM module that is not
part of the TypeScript sources).  JavaScript string building is modelled
with Lean `String`s; `Array.prototype.join('\n')` becomes `joinNL`;
JavaScript objects used as insertion-ordered string-keyed maps become
association lists `List (String × _)`.
-/

namespace SketchDDD

/-- A field of an entity or value object (`Field` in `@/types`). -/
structure Field where
  id : String
  name : String
  type : String
  optional : Bool
deriving DecidableEq, Repr

/-- A variant of an enum (`EnumVariant` in `@/types`); `payload` is the
optional payload type name (`string | undefined` in the source, where the
empty string is falsy). -/
structure EnumVariant where
  id : String
  name : String
  payload : Option String
deriving DecidableEq, Repr

/-- `EntityNode` from `@/types`. -/
structure EntityNode where
  name : String
  fields : List Field
deriving DecidableEq, Repr

/-- `ValueNode` from `@/types`. -/
structure ValueNode where
  name : String
  fields : List Field
deriving DecidableEq, Repr

/-- `EnumNode` from `@/types`. -/
structure EnumNode where
  name : String
  variants : List EnumVariant
deriving DecidableEq, Repr

/-- `AggregateNode` from `@/types`. -/
structure AggregateNode where
  name : String
  rootId : String
  memberIds : List String
  invariants : List String
deriving DecidableEq, Repr

/-- The closed tagged union of node kinds (`DomainNode` in `@/types`,
discriminated by its `kind` field `entity | value | enum | aggregate`). -/
inductive DomainNode where
  | entity (node : EntityNode)
  | value (node : ValueNode)
  | enum (node : EnumNode)
  | aggregate (node : AggregateNode)
deriving DecidableEq, Repr

/-- The `name` property shared by every node kind. -/
def DomainNode.name : DomainNode → String
  | .entity n => n.name
  | .value n => n.name
  | .enum n => n.name
  | .aggregate n => n.name

/-- Canvas position of a node (irrelevant to codegen, kept for fidelity). -/
structure Position where
  x : Int
  y : Int
deriving DecidableEq, Repr

/-- A node store entry `{ node, position }`. -/
structure NodeData where
  node : DomainNode
  position : Position
deriving DecidableEq, Repr

/-- Morphism cardinality `'one' | 'optional' | 'many'`. -/
inductive Cardinality where
  | one
  | optional
  | many
deriving DecidableEq, Repr

/-- A directed edge between two nodes (`Morphism` in `@/types`). -/
structure Morphism where
  id : String
  sourceId : String
  targetId : String
  name : String
  cardinality : Cardinality
deriving DecidableEq, Repr

/-- A bounded context (`ContextData` in `@/types`): `nodes` is the
insertion-ordered string-keyed record `Record<string, {node, position}>`,
modelled as an association list. -/
structure ContextData where
  id : String
  name : String
  nodes : List (String × NodeData)
  morphisms : List Morphism
deriving DecidableEq, Repr

/-- `TargetLanguage` from `codegen/types.ts`. -/
inductive TargetLanguage where
  | typescript
  | java
  | csharp
deriving DecidableEq, Repr

/-- `CodeGenOptions` from `codegen/types.ts`; the optional `namespace`
property is called `namespaceName` here because `namespace` is a Lean
keyword. -/
structure CodeGenOptions where
  language : TargetLanguage
  includeComments : Bool
  generateInterfaces : Bool
  generateClasses : Bool
  namespaceName : Option String
  packageName : Option String
deriving DecidableEq, Repr

/-- `GeneratedFile` from `codegen/types.ts`. -/
structure GeneratedFile where
  filename : String
  content : String
  language : TargetLanguage
deriving DecidableEq, Repr

/-- `Array.prototype.join(sep)`. -/
def joinSep (sep : String) : List String → String
  | [] => ""
  | [l] => l
  | l :: ls => l ++ sep ++ joinSep sep ls

/-- `Array.prototype.join('\n')` on the accumulated `lines` arrays. -/
def joinNL (ls : List String) : String :=
  joinSep "\n" ls

/-- The `typeMap` record of `mapTypeToTS` (`typescript.ts` lines 5-28). -/
def tsTypeMap : List (String × String) :=
  [("string", "string"), ("String", "string"),
   ("int", "number"), ("integer", "number"), ("Int", "number"),
   ("Integer", "number"), ("float", "number"), ("Float", "number"),
   ("double", "number"), ("Double", "number"), ("number", "number"),
   ("Number", "number"), ("boolean", "boolean"), ("Boolean", "boolean"),
   ("bool", "boolean"), ("Bool", "boolean"), ("date", "Date"),
   ("Date", "Date"), ("datetime", "Date"), ("DateTime", "Date"),
   ("uuid", "string"), ("UUID", "string")]

/-- `mapTypeToTS` (`typescript.ts` lines 4-30): record lookup with the
input itself as fallback. -/
def mapTypeToTS (t : String) : String :=
  ((tsTypeMap.find? (fun p => p.1 = t)).map Prod.snd).getD t

/-- `Object.entries(nodes).find(([id]) => id === key)?.[1]?.node` — the
node-record lookup used by the TypeScript generator. -/
def findNode (nodes : List (String × NodeData)) (key : String) : Option DomainNode :=
  (nodes.find? (fun p => p.1 = key)).map (fun p => p.2.node)

/-- JavaScript truthiness of `variant.payload : string | undefined`:
`undefined` and the empty string are falsy. -/
def payloadTruthy (v : EnumVariant) : Bool :=
  match v.payload with
  | none => false
  | some s => s != ""

/-- `s.toUpperCase()` (ASCII, character by character). -/
def strToUpper (s : String) : String :=
  String.mk (s.data.map Char.toUpper)

/-- `s.toLowerCase()` (ASCII, character by character). -/
def strToLower (s : String) : String :=
  String.mk (s.data.map Char.toLower)

/-- `s.trim()` — strip leading and trailing whitespace. -/
def jsTrim (s : String) : String :=
  String.mk (((s.data.dropWhile Char.isWhitespace).reverse.dropWhile
    Char.isWhitespace).reverse)

/-- `str.charAt(0).toUpperCase() + str.slice(1)` (`capitalize` in
`java.ts` lines 32-34). -/
def capitalize (str : String) : String :=
  match str.data with
  | [] => ""
  | c :: cs => String.mk (c.toUpper :: cs)

/-- `context.name.replace(/\s+/g, '')` — strip all whitespace. -/
def removeWhitespace (s : String) : String :=
  String.mk (s.data.filter (fun c => !c.isWhitespace))

/-- `generateEntity` of `typescript.ts` (lines 32-91), producing the
`lines` array.  Literal braces and apostrophes of the emitted TypeScript
are written as `\x7b`, `\x7d` and `\x27` escapes. -/
def generateEntityTSLines (node : EntityNode) (morphisms : List Morphism)
    (nodes : List (String × NodeData)) (options : CodeGenOptions) : List String :=
  (if options.includeComments then
    ["/**", " * Entity: " ++ node.name,
     " * An entity with a unique identity", " */"]
   else []) ++
  (if options.generateInterfaces then
    ["export interface " ++ node.name ++ " \x7b", "  readonly id: string;"] ++
    node.fields.map (fun field =>
      "  " ++ field.name ++ (if field.optional then "?" else "") ++ ": " ++
        mapTypeToTS field.type ++ ";") ++
    ((morphisms.filter (fun m =>
        m.sourceId == node.name ||
          (match findNode nodes m.sourceId with
           | some n => n.name == node.name
           | none => false))).filterMap (fun m =>
      match findNode nodes m.targetId with
      | some targetNode =>
        some ("  " ++ m.name ++
          (if m.cardinality = Cardinality.optional then "?" else "") ++ ": " ++
          targetNode.name ++
          (match m.cardinality with
           | .many => "[]"
           | .optional => " | null"
           | .one => "") ++ ";")
      | none => none)) ++
    ["\x7d"]
   else []) ++
  (if options.generateClasses then
    ["",
     "export class " ++ node.name ++ "Impl implements " ++ node.name ++ " \x7b",
     "  readonly id: string;"] ++
    node.fields.map (fun field =>
      "  " ++ field.name ++ (if field.optional then "?" else "") ++ ": " ++
        mapTypeToTS field.type ++ ";") ++
    ["",
     "  constructor(data: Omit<" ++ node.name ++
       ", \x27id\x27> & \x7b id?: string \x7d) \x7b",
     "    this.id = data.id ?? crypto.randomUUID();"] ++
    node.fields.map (fun field =>
      "    this." ++ field.name ++ " = data." ++ field.name ++ ";") ++
    ["  \x7d", "\x7d"]
   else [])

/-- `node.fields.map(f => `this.${f.name} === other.${f.name}`).join(' && ') || 'true'`
(`typescript.ts` line 130): the structural-equality conjunction of the
generated `equals` method, one comparison per declared field, `true`
when there is no field. -/
def tsEqualsCondition (fields : List Field) : String :=
  let j := joinSep " && "
    (fields.map (fun f => "this." ++ f.name ++ " === other." ++ f.name))
  if j = "" then "true" else j

/-- `generateValueObject` of `typescript.ts` (lines 93-136). -/
def generateValueObjectTSLines (node : ValueNode) (options : CodeGenOptions) : List String :=
  (if options.includeComments then
    ["/**", " * Value Object: " ++ node.name,
     " * An immutable value type identified by its attributes", " */"]
   else []) ++
  (if options.generateInterfaces then
    ["export interface " ++ node.name ++ " \x7b"] ++
    node.fields.map (fun field =>
      "  readonly " ++ field.name ++ (if field.optional then "?" else "") ++ ": " ++
        mapTypeToTS field.type ++ ";") ++
    ["\x7d"]
   else []) ++
  (if options.generateClasses then
    ["",
     "export class " ++ node.name ++ "Impl implements " ++ node.name ++ " \x7b"] ++
    node.fields.map (fun field =>
      "  readonly " ++ field.name ++ ": " ++ mapTypeToTS field.type ++ ";") ++
    ["",
     "  constructor(data: " ++ node.name ++ ") \x7b"] ++
    node.fields.map (fun field =>
      "    this." ++ field.name ++ " = data." ++ field.name ++ ";") ++
    ["  \x7d",
     "",
     "  equals(other: " ++ node.name ++ "): boolean \x7b",
     "    return " ++ tsEqualsCondition node.fields ++ ";",
     "  \x7d", "\x7d"]
   else [])

/-- One case of the discriminated union emitted for a payload-bearing
enum (`typescript.ts` lines 155-159, without the trailing separator). -/
def tsUnionCase (v : EnumVariant) : String :=
  if payloadTruthy v then
    "  | \x7b type: \x27" ++ v.name ++ "\x27; value: " ++
      mapTypeToTS (v.payload.getD "") ++ " \x7d"
  else
    "  | \x7b type: \x27" ++ v.name ++ "\x27 \x7d"

/-- The union case lines with the `index === length - 1 ? ';' : ''`
separator of `typescript.ts` lines 153-160. -/
def tsUnionVariantLines : List EnumVariant → List String
  | [] => []
  | [v] => [tsUnionCase v ++ ";"]
  | v :: vs => tsUnionCase v :: tsUnionVariantLines vs

/-- The simple-enum member lines with the `index < length - 1 ? ',' : ''`
comma of `typescript.ts` lines 164-167. -/
def tsSimpleVariantLines : List EnumVariant → List String
  | [] => []
  | [v] => ["  " ++ v.name ++ " = \x27" ++ v.name ++ "\x27"]
  | v :: vs => ("  " ++ v.name ++ " = \x27" ++ v.name ++ "\x27,") :: tsSimpleVariantLines vs

/-- `generateEnum` of `typescript.ts` (lines 138-172): a discriminated
union when some variant payload is truthy, a simple enum otherwise. -/
def generateEnumTSLines (node : EnumNode) (options : CodeGenOptions) : List String :=
  (if options.includeComments then
    ["/**", " * Enum: " ++ node.name, " */"]
   else []) ++
  (if node.variants.any payloadTruthy then
    ["export type " ++ node.name ++ " ="] ++ tsUnionVariantLines node.variants
   else
    ["export enum " ++ node.name ++ " \x7b"] ++ tsSimpleVariantLines node.variants ++ ["\x7d"])

/-- `generateAggregate` of `typescript.ts` (lines 174-211). -/
def generateAggregateTSLines (node : AggregateNode)
    (nodes : List (String × NodeData)) (options : CodeGenOptions) : List String :=
  (if options.includeComments then
    ["/**", " * Aggregate: " ++ node.name] ++
    (match findNode nodes node.rootId with
     | some rn => [" * Root Entity: " ++ rn.name]
     | none => []) ++
    (if node.invariants.length > 0 then
      [" * ", " * Invariants:"] ++ node.invariants.map (fun inv => " * - " ++ inv)
     else []) ++
    [" */"]
   else []) ++
  ["export interface " ++ node.name ++ "Aggregate \x7b"] ++
  (match findNode nodes node.rootId with
   | some rn => ["  root: " ++ rn.name ++ ";"]
   | none => []) ++
  ((node.memberIds.filterMap (findNode nodes)).map (fun member =>
    "  " ++ strToLower member.name ++ "s: " ++ member.name ++ "[];")) ++
  ["\x7d"]

/-- The file header of `generateTypeScript` (`typescript.ts` lines
216-223), emitted only when comments are requested; `now` stands for the
`new Date().toISOString()` read of line 220. -/
def tsHeaderLines (now : String) (context : ContextData)
    (options : CodeGenOptions) : List String :=
  if options.includeComments then
    ["/**", " * Generated by SketchDDD", " * Context: " ++ context.name,
     " * Generated at: " ++ now, " */", ""]
  else []

/-- The block (plus trailing blank line) emitted for one node entry by
the enum loop of `generateTypeScript` (`typescript.ts` lines 228-233):
the block for an enum node, nothing for any other kind. -/
def tsEnumCase (options : CodeGenOptions) (p : String × NodeData) : List String :=
  match p.2.node with
  | .enum n => [joinNL (generateEnumTSLines n options), ""]
  | _ => []

/-- The value-object loop body of `generateTypeScript` (lines 236-241). -/
def tsValueCase (options : CodeGenOptions) (p : String × NodeData) : List String :=
  match p.2.node with
  | .value n => [joinNL (generateValueObjectTSLines n options), ""]
  | _ => []

/-- The entity loop body of `generateTypeScript` (lines 244-249); it
reads the context's morphisms and node table. -/
def tsEntityCase (options : CodeGenOptions) (context : ContextData)
    (p : String × NodeData) : List String :=
  match p.2.node with
  | .entity n => [joinNL (generateEntityTSLines n context.morphisms context.nodes options), ""]
  | _ => []

/-- The aggregate loop body of `generateTypeScript` (lines 252-257). -/
def tsAggregateCase (options : CodeGenOptions) (context : ContextData)
    (p : String × NodeData) : List String :=
  match p.2.node with
  | .aggregate n => [joinNL (generateAggregateTSLines n context.nodes options), ""]
  | _ => []

/-- `generateTypeScript` (`typescript.ts` lines 213-266).  The impure
`new Date().toISOString()` read of line 220 is modelled by the explicit
`now` argument; everything else is a pure function of the context and the
options.  The source iterates `Object.entries(context.nodes)` once per
kind (`filter` by `kind` then `forEach`), pushing each block followed by
an empty line; each `flatMap` below fuses one filter/forEach pair. -/
def generateTypeScript (now : String) (context : ContextData)
    (options : CodeGenOptions) : GeneratedFile :=
  let header : List String := tsHeaderLines now context options
  let enumBlocks : List String := context.nodes.flatMap (tsEnumCase options)
  let valueBlocks : List String := context.nodes.flatMap (tsValueCase options)
  let entityBlocks : List String := context.nodes.flatMap (tsEntityCase options context)
  let aggregateBlocks : List String := context.nodes.flatMap (tsAggregateCase options context)
  { filename := removeWhitespace context.name ++ ".ts"
    content := jsTrim (joinNL (header ++ enumBlocks ++ valueBlocks ++ entityBlocks ++ aggregateBlocks))
    language := TargetLanguage.typescript }

/-- JavaScript `o || dflt` on an optional string: `undefined` and the
empty string both fall back to the default. -/
def jsOrDefault (o : Option String) (dflt : String) : String :=
  match o with
  | none => dflt
  | some s => if s == "" then dflt else s

/-- The `typeMap` record of `mapTypeToJava` (`java.ts` lines 5-28). -/
def javaTypeMap : List (String × String) :=
  [("string", "String"), ("String", "String"),
   ("int", "int"), ("integer", "int"), ("Int", "Integer"),
   ("Integer", "Integer"), ("float", "float"), ("Float", "Float"),
   ("double", "double"), ("Double", "Double"), ("number", "double"),
   ("Number", "Double"), ("boolean", "boolean"), ("Boolean", "Boolean"),
   ("bool", "boolean"), ("Bool", "Boolean"), ("date", "LocalDate"),
   ("Date", "LocalDate"), ("datetime", "LocalDateTime"),
   ("DateTime", "LocalDateTime"), ("uuid", "UUID"), ("UUID", "UUID")]

/-- `mapTypeToJava` (`java.ts` lines 4-30). -/
def mapTypeToJava (t : String) : String :=
  ((javaTypeMap.find? (fun p => p.1 = t)).map Prod.snd).getD t

/-- `generateEntity` of `java.ts` (lines 36-118). -/
def generateEntityJavaLines (node : EntityNode) (options : CodeGenOptions) : List String :=
  let pkg := jsOrDefault options.packageName "com.example.domain"
  ["package " ++ pkg ++ ";", "",
   "import java.util.UUID;", "import java.util.Objects;", ""] ++
  (if options.includeComments then
    ["/**", " * Entity: " ++ node.name,
     " * An entity with a unique identity", " */"]
   else []) ++
  ["public class " ++ node.name ++ " \x7b", "",
   "    private final UUID id;"] ++
  node.fields.map (fun field =>
    "    private " ++ mapTypeToJava field.type ++ " " ++ field.name ++ ";") ++
  ["",
   "    public " ++ node.name ++ "() \x7b",
   "        this.id = UUID.randomUUID();",
   "    \x7d",
   "",
   "    public " ++ node.name ++ "(UUID id) \x7b",
   "        this.id = id;",
   "    \x7d",
   "",
   "    public UUID getId() \x7b",
   "        return id;",
   "    \x7d"] ++
  node.fields.flatMap (fun field =>
    let javaType := mapTypeToJava field.type
    let capName := capitalize field.name
    ["",
     "    public " ++ javaType ++ " get" ++ capName ++ "() \x7b",
     "        return " ++ field.name ++ ";",
     "    \x7d",
     "",
     "    public void set" ++ capName ++ "(" ++ javaType ++ " " ++ field.name ++ ") \x7b",
     "        this." ++ field.name ++ " = " ++ field.name ++ ";",
     "    \x7d"]) ++
  ["",
   "    @Override",
   "    public boolean equals(Object o) \x7b",
   "        if (this == o) return true;",
   "        if (o == null || getClass() != o.getClass()) return false;",
   "        " ++ node.name ++ " that = (" ++ node.name ++ ") o;",
   "        return Objects.equals(id, that.id);",
   "    \x7d",
   "",
   "    @Override",
   "    public int hashCode() \x7b",
   "        return Objects.hash(id);",
   "    \x7d",
   "\x7d"]

/-- The `equalsCondition` of `java.ts` line 174:
`fields.map(f => `Objects.equals(${f.name}, that.${f.name})`).join(' && ') || 'true'`. -/
def javaEqualsCondition (fields : List Field) : String :=
  let j := joinSep " && "
    (fields.map (fun f => "Objects.equals(" ++ f.name ++ ", that." ++ f.name ++ ")"))
  if j = "" then "true" else j

/-- `generateValueObject` of `java.ts` (lines 120-188). -/
def generateValueObjectJavaLines (node : ValueNode) (options : CodeGenOptions) : List String :=
  let pkg := jsOrDefault options.packageName "com.example.domain"
  let params := joinSep ", "
    (node.fields.map (fun f => mapTypeToJava f.type ++ " " ++ f.name))
  let hashFields := joinSep ", " (node.fields.map (fun f => f.name))
  ["package " ++ pkg ++ ";", "",
   "import java.util.Objects;", ""] ++
  (if options.includeComments then
    ["/**", " * Value Object: " ++ node.name,
     " * An immutable value type identified by its attributes", " */"]
   else []) ++
  ["public final class " ++ node.name ++ " \x7b", ""] ++
  node.fields.map (fun field =>
    "    private final " ++ mapTypeToJava field.type ++ " " ++ field.name ++ ";") ++
  ["",
   "    public " ++ node.name ++ "(" ++ params ++ ") \x7b"] ++
  node.fields.map (fun field =>
    "        this." ++ field.name ++ " = " ++ field.name ++ ";") ++
  ["    \x7d"] ++
  node.fields.flatMap (fun field =>
    ["",
     "    public " ++ mapTypeToJava field.type ++ " get" ++ capitalize field.name ++ "() \x7b",
     "        return " ++ field.name ++ ";",
     "    \x7d"]) ++
  ["",
   "    @Override",
   "    public boolean equals(Object o) \x7b",
   "        if (this == o) return true;",
   "        if (o == null || getClass() != o.getClass()) return false;",
   "        " ++ node.name ++ " that = (" ++ node.name ++ ") o;",
   "        return " ++ javaEqualsCondition node.fields ++ ";",
   "    \x7d",
   "",
   "    @Override",
   "    public int hashCode() \x7b",
   "        return Objects.hash(" ++ hashFields ++ ");",
   "    \x7d",
   "\x7d"]

/-- The Java enum member lines with the `index < length - 1 ? ',' : ';'`
separator of `java.ts` lines 204-207 (variant names uppercased, payloads
never consulted). -/
def javaEnumVariantLines : List EnumVariant → List String
  | [] => []
  | [v] => ["    " ++ strToUpper v.name ++ ";"]
  | v :: vs => ("    " ++ strToUpper v.name ++ ",") :: javaEnumVariantLines vs

/-- `generateEnum` of `java.ts` (lines 190-211). -/
def generateEnumJavaLines (node : EnumNode) (options : CodeGenOptions) : List String :=
  let pkg := jsOrDefault options.packageName "com.example.domain"
  ["package " ++ pkg ++ ";", ""] ++
  (if options.includeComments then
    ["/**", " * Enum: " ++ node.name, " */"]
   else []) ++
  ["public enum " ++ node.name ++ " \x7b"] ++
  javaEnumVariantLines node.variants ++
  ["\x7d"]

/-- `generateAggregate` of `java.ts` (lines 213-298): per resolved member
a backing list field, a copying getter and an `add` mutator — the Java
backend synthesizes no remove operation. -/
def generateAggregateJavaLines (node : AggregateNode)
    (nodes : List (String × NodeData)) (options : CodeGenOptions) : List String :=
  let pkg := jsOrDefault options.packageName "com.example.domain"
  ["package " ++ pkg ++ ";", "",
   "import java.util.List;", "import java.util.ArrayList;", ""] ++
  (if options.includeComments then
    ["/**", " * Aggregate: " ++ node.name] ++
    (match findNode nodes node.rootId with
     | some rn => [" * Root Entity: " ++ rn.name]
     | none => []) ++
    (if node.invariants.length > 0 then
      [" * ", " * Invariants:"] ++ node.invariants.map (fun inv => " * - " ++ inv)
     else []) ++
    [" */"]
   else []) ++
  ["public class " ++ node.name ++ "Aggregate \x7b", ""] ++
  (match findNode nodes node.rootId with
   | some rn => ["    private final " ++ rn.name ++ " root;"]
   | none => []) ++
  node.memberIds.filterMap (fun mid =>
    (findNode nodes mid).map (fun m =>
      "    private final List<" ++ m.name ++ "> " ++ strToLower m.name ++ "s;")) ++
  ["",
   "    public " ++ node.name ++ "Aggregate(" ++
     (match findNode nodes node.rootId with
      | some rn => rn.name ++ " root"
      | none => "") ++ ") \x7b"] ++
  (match findNode nodes node.rootId with
   | some _ => ["        this.root = root;"]
   | none => []) ++
  node.memberIds.filterMap (fun mid =>
    (findNode nodes mid).map (fun m =>
      "        this." ++ strToLower m.name ++ "s = new ArrayList<>();")) ++
  ["    \x7d", ""] ++
  (match findNode nodes node.rootId with
   | some rn =>
     ["    public " ++ rn.name ++ " getRoot() \x7b",
      "        return root;",
      "    \x7d"]
   | none => []) ++
  node.memberIds.flatMap (fun mid =>
    match findNode nodes mid with
    | some m =>
      ["",
       "    public List<" ++ m.name ++ "> get" ++ capitalize m.name ++ "s() \x7b",
       "        return new ArrayList<>(" ++ strToLower m.name ++ "s);",
       "    \x7d",
       "",
       "    public void add" ++ m.name ++ "(" ++ m.name ++ " item) \x7b",
       "        this." ++ strToLower m.name ++ "s.add(item);",
       "    \x7d"]
    | none => []) ++
  ["\x7d"]

/-- The `(content, filename)` pair the `switch` of `generateJava`
(`java.ts` lines 309-326) computes for one node entry. -/
def javaFilePair (nodes : List (String × NodeData)) (options : CodeGenOptions)
    (p : String × NodeData) : String × String :=
  match p.2.node with
  | .entity n => (joinNL (generateEntityJavaLines n options), n.name ++ ".java")
  | .value n => (joinNL (generateValueObjectJavaLines n options), n.name ++ ".java")
  | .enum n => (joinNL (generateEnumJavaLines n options), n.name ++ ".java")
  | .aggregate n =>
    (joinNL (generateAggregateJavaLines n nodes options), n.name ++ "Aggregate.java")

/-- `generateJava` (`java.ts` lines 300-338): one file per node, emitted
by a single `forEach` over `Object.entries(context.nodes)` in insertion
order; a file is pushed only when both content and filename are truthy. -/
def generateJava (context : ContextData) (options : CodeGenOptions) : List GeneratedFile :=
  context.nodes.foldl (fun files p =>
    let result := javaFilePair context.nodes options p
    if result.1 != "" && result.2 != "" then
      files ++ [{ filename := result.2, content := result.1, language := TargetLanguage.java }]
    else files) []

/-- The `typeMap` record of `mapTypeToCSharp` (`csharp.ts` lines 5-29). -/
def csharpTypeMap : List (String × String) :=
  [("string", "string"), ("String", "string"),
   ("int", "int"), ("integer", "int"), ("Int", "int"),
   ("Integer", "int"), ("float", "float"), ("Float", "float"),
   ("double", "double"), ("Double", "double"), ("number", "double"),
   ("Number", "double"), ("boolean", "bool"), ("Boolean", "bool"),
   ("bool", "bool"), ("Bool", "bool"), ("date", "DateOnly"),
   ("Date", "DateOnly"), ("datetime", "DateTime"),
   ("DateTime", "DateTime"), ("uuid", "Guid"), ("UUID", "Guid")]

/-- `mapTypeToCSharp` (`csharp.ts` lines 5-31). -/
def mapTypeToCSharp (t : String) : String :=
  ((csharpTypeMap.find? (fun p => p.1 = t)).map Prod.snd).getD t

/-- `generateEntity` of `csharp.ts` (lines 33-77). -/
def generateEntityCSharpLines (node : EntityNode) (options : CodeGenOptions) : List String :=
  let ns := jsOrDefault options.namespaceName "Domain"
  ["namespace " ++ ns ++ ";", ""] ++
  (if options.includeComments then
    ["/// <summary>", "/// Entity: " ++ node.name,
     "/// An entity with a unique identity", "/// </summary>"]
   else []) ++
  ["public class " ++ node.name, "\x7b",
   "    public Guid Id \x7b get; init; \x7d = Guid.NewGuid();", ""] ++
  node.fields.map (fun field =>
    "    public" ++ (if field.optional then "" else " required") ++ " " ++
      mapTypeToCSharp field.type ++ (if field.optional then "?" else "") ++ " " ++
      capitalize field.name ++ " \x7b get; set; \x7d") ++
  ["",
   "    public override bool Equals(object? obj)",
   "    \x7b",
   "        if (obj is not " ++ node.name ++ " other) return false;",
   "        return Id == other.Id;",
   "    \x7d",
   "",
   "    public override int GetHashCode() => Id.GetHashCode();",
   "\x7d"]

/-- `generateValueObject` of `csharp.ts` (lines 79-105): a positional
record whose parameters are exactly the declared fields. -/
def generateValueObjectCSharpLines (node : ValueNode) (options : CodeGenOptions) : List String :=
  let ns := jsOrDefault options.namespaceName "Domain"
  let params := joinSep ", "
    (node.fields.map (fun f =>
      mapTypeToCSharp f.type ++ (if f.optional then "?" else "") ++ " " ++ capitalize f.name))
  ["namespace " ++ ns ++ ";", ""] ++
  (if options.includeComments then
    ["/// <summary>", "/// Value Object: " ++ node.name,
     "/// An immutable value type identified by its attributes", "/// </summary>"]
   else []) ++
  ["public record " ++ node.name ++ "(" ++ params ++ ");"]

/-- The C# enum member lines with the `index < length - 1 ? ',' : ''`
comma of `csharp.ts` lines 537-540 (payloads never consulted). -/
def csharpEnumVariantLines : List EnumVariant → List String
  | [] => []
  | [v] => ["    " ++ v.name]
  | v :: vs => ("    " ++ v.name ++ ",") :: csharpEnumVariantLines vs

/-- `generateEnum` of `csharp.ts` (lines 522-544). -/
def generateEnumCSharpLines (node : EnumNode) (options : CodeGenOptions) : List String :=
  let ns := jsOrDefault options.namespaceName "Domain"
  ["namespace " ++ ns ++ ";", ""] ++
  (if options.includeComments then
    ["/// <summary>", "/// Enum: " ++ node.name, "/// </summary>"]
   else []) ++
  ["public enum " ++ node.name, "\x7b"] ++
  csharpEnumVariantLines node.variants ++
  ["\x7d"]

/-- `generateAggregate` of `csharp.ts` (lines 546-621): per resolved
member a backing list, a read-only view property, and both an `Add` and a
`Remove` mutator. -/
def generateAggregateCSharpLines (node : AggregateNode)
    (nodes : List (String × NodeData)) (options : CodeGenOptions) : List String :=
  let ns := jsOrDefault options.namespaceName "Domain"
  ["namespace " ++ ns ++ ";", ""] ++
  (if options.includeComments then
    ["/// <summary>", "/// Aggregate: " ++ node.name] ++
    (match findNode nodes node.rootId with
     | some rn => ["/// Root Entity: " ++ rn.name]
     | none => []) ++
    (if node.invariants.length > 0 then
      ["/// ", "/// Invariants:"] ++ node.invariants.map (fun inv => "/// - " ++ inv)
     else []) ++
    ["/// </summary>"]
   else []) ++
  ["public class " ++ node.name ++ "Aggregate", "\x7b"] ++
  node.memberIds.filterMap (fun mid =>
    (findNode nodes mid).map (fun m =>
      "    private readonly List<" ++ m.name ++ "> _" ++ strToLower m.name ++ "s = new();")) ++
  (if node.memberIds.length > 0 then [""] else []) ++
  (match findNode nodes node.rootId with
   | some rn => ["    public required " ++ rn.name ++ " Root \x7b get; init; \x7d"]
   | none => []) ++
  node.memberIds.filterMap (fun mid =>
    (findNode nodes mid).map (fun m =>
      "    public IReadOnlyList<" ++ m.name ++ "> " ++ m.name ++ "s => _" ++
        strToLower m.name ++ "s.AsReadOnly();")) ++
  node.memberIds.flatMap (fun mid =>
    match findNode nodes mid with
    | some m =>
      ["",
       "    public void Add" ++ m.name ++ "(" ++ m.name ++ " item)",
       "    \x7b",
       "        // TODO: Validate invariants before adding",
       "        _" ++ strToLower m.name ++ "s.Add(item);",
       "    \x7d",
       "",
       "    public bool Remove" ++ m.name ++ "(" ++ m.name ++ " item)",
       "    \x7b",
       "        return _" ++ strToLower m.name ++ "s.Remove(item);",
       "    \x7d"]
    | none => []) ++
  ["\x7d"]

/-- The `(content, filename)` pair the `switch` of `generateCSharp`
(`csharp.ts` lines 632-649) computes for one node entry. -/
def csharpFilePair (nodes : List (String × NodeData)) (options : CodeGenOptions)
    (p : String × NodeData) : String × String :=
  match p.2.node with
  | .entity n => (joinNL (generateEntityCSharpLines n options), n.name ++ ".cs")
  | .value n => (joinNL (generateValueObjectCSharpLines n options), n.name ++ ".cs")
  | .enum n => (joinNL (generateEnumCSharpLines n options), n.name ++ ".cs")
  | .aggregate n =>
    (joinNL (generateAggregateCSharpLines n nodes options), n.name ++ "Aggregate.cs")

/-- `generateCSharp` (`csharp.ts` lines 623-661): same one-file-per-node
`forEach` as the Java backend. -/
def generateCSharp (context : ContextData) (options : CodeGenOptions) : List GeneratedFile :=
  context.nodes.foldl (fun files p =>
    let result := csharpFilePair context.nodes options p
    if result.1 != "" && result.2 != "" then
      files ++ [{ filename := result.2, content := result.1, language := TargetLanguage.csharp }]
    else files) []

/-- `Partial<CodeGenOptions>` as passed to `generateCode`: every property
may be absent, an absent property keeps the default. -/
structure PartialCodeGenOptions where
  language : Option TargetLanguage := none
  includeComments : Option Bool := none
  generateInterfaces : Option Bool := none
  generateClasses : Option Bool := none
  namespaceName : Option (Option String) := none
  packageName : Option (Option String) := none
deriving DecidableEq, Repr

/-- The `defaultOptions` object of `generateCode` (`index.ts` lines
17-25): the defaults overridden by the spread of the caller's partial
options. -/
def mergeOptions (language : TargetLanguage)
    (options : Option PartialCodeGenOptions) : CodeGenOptions :=
  let d : CodeGenOptions :=
    { language := language, includeComments := true, generateInterfaces := true,
      generateClasses := true, namespaceName := some "Domain",
      packageName := some "com.example.domain" }
  match options with
  | none => d
  | some p =>
    { language := p.language.getD d.language
      includeComments := p.includeComments.getD d.includeComments
      generateInterfaces := p.generateInterfaces.getD d.generateInterfaces
      generateClasses := p.generateClasses.getD d.generateClasses
      namespaceName := p.namespaceName.getD d.namespaceName
      packageName := p.packageName.getD d.packageName }

/-- `generateCode` (`index.ts` lines 12-37).  The `now` argument models
the clock read performed inside `generateTypeScript`; the Java and C#
backends never read the clock. -/
def generateCode (now : String) (context : ContextData) (language : TargetLanguage)
    (options : Option PartialCodeGenOptions) : List GeneratedFile :=
  let defaultOptions := mergeOptions language options
  match language with
  | .typescript => [generateTypeScript now context defaultOptions]
  | .java => generateJava context defaultOptions
  | .csharp => generateCSharp context defaultOptions

/-- `ContextMap` from `@/types`: relates two bounded contexts by id. -/
structure ContextMap where
  id : String
  name : String
  sourceContextId : String
  targetContextId : String
  pattern : String
deriving DecidableEq, Repr

/-- The part of the Zustand `DomainState` (`domainStore.ts` lines 21-41)
the verified actions touch; the module-level undo history is kept outside
this state in the source and is not modelled. -/
structure DomainState where
  activeContextId : Option String
  contexts : List (String × ContextData)
  contextMaps : List ContextMap
  selectedNodeIds : List String
  selectedEdgeIds : List String
  isPaletteOpen : Bool
  isPropertiesPanelOpen : Bool
deriving DecidableEq, Repr

/-- Lookup `state.contexts[contextId]` in the string-keyed record. -/
def lookupAssoc {α : Type} (l : List (String × α)) (k : String) : Option α :=
  (l.find? (fun p => p.1 = k)).map Prod.snd

/-- In-place update of one key of a string-keyed record, preserving
insertion order (immer draft mutation). -/
def updateAssoc {α : Type} (l : List (String × α)) (k : String) (f : α → α) :
    List (String × α) :=
  l.map (fun p => if p.1 = k then (p.1, f p.2) else p)

/-- `deleteContext` (`domainStore.ts` lines 151-163): removes the context,
filters out every context map referencing it, and repairs
`activeContextId` with the first remaining context key. -/
def deleteContext (s : DomainState) (contextId : String) : DomainState :=
  let contexts := s.contexts.filter (fun p => p.1 != contextId)
  let contextMaps := s.contextMaps.filter (fun m =>
    m.sourceContextId != contextId && m.targetContextId != contextId)
  let activeContextId :=
    if s.activeContextId = some contextId then
      match contexts with
      | [] => none
      | p :: _ => some p.1
    else s.activeContextId
  { s with contexts := contexts, contextMaps := contextMaps,
           activeContextId := activeContextId }

/-- `deleteNode` (`domainStore.ts` lines 204-218): when the context
exists, removes the node entry, filters out the morphisms whose source or
target is the node, and drops the node id from the selection. -/
def deleteNode (s : DomainState) (contextId nodeId : String) : DomainState :=
  match lookupAssoc s.contexts contextId with
  | none => s
  | some _ =>
    { s with
      contexts := updateAssoc s.contexts contextId (fun ctx =>
        { ctx with
          nodes := ctx.nodes.filter (fun p => p.1 != nodeId)
          morphisms := ctx.morphisms.filter (fun m =>
            m.sourceId != nodeId && m.targetId != nodeId) })
      selectedNodeIds := s.selectedNodeIds.filter (fun i => i != nodeId) }

/-- Diagnostic severity (`ValidationIssue.severity` in `wasm/types.ts`). -/
inductive Severity where
  | error
  | warning
  | hint
deriving DecidableEq, Repr

/-- `ValidationIssue` (`wasm/types.ts` lines 89-97; location fields
omitted — the modelled validator attaches no spans). -/
structure ValidationIssue where
  severity : Severity
  code : String
  message : String
  context : Option String
  suggestion : Option String
deriving DecidableEq, Repr

/-- `ValidationResult` (`wasm/types.ts` lines 82-87). -/
structure ValidationResult where
  valid : Bool
  error_count : Nat
  warning_count : Nat
  issues : List ValidationIssue
deriving DecidableEq, Repr

/-- One row-extension step of the dynamic-programming Levenshtein
computation: given the previous row (starting at its `j-1` entry), the
value just computed to the left, and the remaining characters of the
second word, produce the rest of the new row. -/
def levRowAux (c : Char) : List Char → List Nat → Nat → List Nat
  | [], _, _ => []
  | b :: bs, p0 :: p1 :: ps, left =>
    let v := min (p1 + 1) (min (left + 1) (p0 + (if c = b then 0 else 1)))
    v :: levRowAux c bs (p1 :: ps) v
  | _ :: _, _, _ => []

/-- Modelled from the spec: the edit (Levenshtein) distance used by
`nearest` (§4.1); the validator implementing it lives in the Rust/WASM
module absent from `src/`.  Standard dynamic programming over rows. -/
def levenshtein (a b : List Char) : Nat :=
  (a.foldl (fun row c =>
    match row with
    | p0 :: _ => (p0 + 1) :: levRowAux c b row (p0 + 1)
    | [] => []) (List.range (b.length + 1))).getLastD 0

/-- Levenshtein distance on strings. -/
def levDist (a b : String) : Nat :=
  levenshtein a.data b.data

/-- Modelled from the spec: the suggestion threshold
`min(3, ceil(0.3 × len(name)))` of §4.1, with `ceil(0.3 n) = (3n+9)/10`
in natural-number arithmetic. -/
def suggestThreshold (name : String) : Nat :=
  min 3 ((3 * name.length + 9) / 10)

/-- Modelled from the spec: the candidate scan behind
`nearest(name, maxEditDistance)` (§4.1) — keep the closest candidate not
farther than the threshold, earlier candidates winning ties. -/
def nearestAux (name : String) : List String → Option (String × Nat)
  | [] => none
  | c :: rest =>
    let d := levDist name c
    let r := nearestAux name rest
    if d ≤ suggestThreshold name then
      match r with
      | none => some (c, d)
      | some (b, bd) => if bd < d then some (b, bd) else some (c, d)
    else r

/-- Modelled from the spec: `nearest(name) -> Option<name>` (§4.1). -/
def nearest (name : String) (candidates : List String) : Option String :=
  (nearestAux name candidates).map Prod.fst

/-- `MorphismInfo` (`wasm/types.ts` lines 57-61). -/
structure MorphismInfoM where
  name : String
  source : String
  target : String
deriving DecidableEq, Repr

/-- Modelled from the spec: the parsed shape of one bounded context as the
validator sees it — the object names in declaration (insertion) order and
the declared morphisms (`ContextInfo` / `MorphismInfo` in
`wasm/types.ts`). -/
structure SpecContext where
  name : String
  objectNames : List String
  morphisms : List MorphismInfoM
deriving DecidableEq, Repr

/-- Modelled from the spec: the Error diagnostic for a morphism endpoint
that does not resolve (§4.2 row E0001–E0009, §4.2 suggestion algorithm):
the message names the unresolved identifier, and `nearest` supplies the
suggestion. -/
def unresolvedMorphismIssue (ctxName : String) (names : List String)
    (n : String) : ValidationIssue :=
  { severity := Severity.error
    code := "E0001"
    message := "Unknown object referenced in morphism: " ++ n
    context := some ctxName
    suggestion := nearest n names }

/-- Modelled from the spec: the morphism-reference validation pass (§4.2,
range E0001–E0009) — every morphism's source and target must resolve
within the context. -/
def morphismRefPass (ctx : SpecContext) : List ValidationIssue :=
  ctx.morphisms.flatMap (fun m =>
    (if ctx.objectNames.contains m.source then []
     else [unresolvedMorphismIssue ctx.name ctx.objectNames m.source]) ++
    (if ctx.objectNames.contains m.target then []
     else [unresolvedMorphismIssue ctx.name ctx.objectNames m.target]))

/-- Names whose occurrence repeats one seen before, scanning left to
right (the `seen` accumulator starts empty). -/
def dupScan : List String → List String → List String
  | [], _ => []
  | n :: rest, seen =>
    if seen.contains n then n :: dupScan rest seen
    else dupScan rest (n :: seen)

/-- Modelled from the spec: the duplicate-name pass (§4.2, range
E0020–E0029) — one Error per object name already declared earlier in the
context. -/
def duplicateNamesPass (ctx : SpecContext) : List ValidationIssue :=
  (dupScan ctx.objectNames []).map (fun n =>
    { severity := Severity.error
      code := "E0020"
      message := "Duplicate object name: " ++ n
      context := some ctx.name
      suggestion := none })

/-- Modelled from the spec: the validator pipeline restricted to the
passes that can fire on a context made only of entities and morphisms
(the remaining passes of §4.2 check aggregates, enums, equations and
context maps, none of which such a context contains). -/
def validateModel (ctx : SpecContext) : ValidationResult :=
  let issues := morphismRefPass ctx ++ duplicateNamesPass ctx
  let ec := (issues.filter (fun i => i.severity = Severity.error)).length
  let wc := (issues.filter (fun i => i.severity = Severity.warning)).length
  { valid := ec = 0, error_count := ec, warning_count := wc, issues := issues }

/-- Substring test on character lists. -/
def hasSubAux (needle : List Char) : List Char → Bool
  | [] => needle.isEmpty
  | c :: rest => needle.isPrefixOf (c :: rest) || hasSubAux needle rest

/-- `hay.includes(sub)`. -/
def containsSub (hay sub : String) : Bool :=
  hasSubAux sub.data hay.data

/-- Index of the first occurrence of a substring. -/
def idxOfSubAux (needle : List Char) : List Char → Nat → Option Nat
  | [], i => if needle.isEmpty then some i else none
  | c :: rest, i =>
    if needle.isPrefixOf (c :: rest) then some i else idxOfSubAux needle rest (i + 1)

/-- Index of the first occurrence of `sub` in `hay`, if any. -/
def idxOfSub (hay sub : String) : Option Nat :=
  idxOfSubAux sub.data hay.data 0

/-- `node.kind === 'enum'`. -/
def DomainNode.isEnumKind : DomainNode → Bool
  | .enum _ => true
  | _ => false

/-- `node.kind === 'value'`. -/
def DomainNode.isValueKind : DomainNode → Bool
  | .value _ => true
  | _ => false

/-- `node.kind === 'entity'`. -/
def DomainNode.isEntityKind : DomainNode → Bool
  | .entity _ => true
  | _ => false

/-- `node.kind === 'aggregate'`. -/
def DomainNode.isAggregateKind : DomainNode → Bool
  | .aggregate _ => true
  | _ => false

/-- The node entries reordered into the TypeScript backend's emission
groups: all enums first, then value objects, then entities, then
aggregates, each group keeping declaration order. -/
def tsKindGrouped (nodes : List (String × NodeData)) : List (String × NodeData) :=
  nodes.filter (fun p => p.2.node.isEnumKind) ++
  nodes.filter (fun p => p.2.node.isValueKind) ++
  nodes.filter (fun p => p.2.node.isEntityKind) ++
  nodes.filter (fun p => p.2.node.isAggregateKind)

/-- The block (followed by a blank line) that the TypeScript backend
emits for a single node entry, dispatching on its kind. -/
def tsDispatchBlock (context : ContextData) (options : CodeGenOptions)
    (p : String × NodeData) : List String :=
  match p.2.node with
  | .enum _ => tsEnumCase options p
  | .value _ => tsValueCase options p
  | .entity _ => tsEntityCase options context p
  | .aggregate _ => tsAggregateCase options context p

/-- The file the Java backend produces for one node entry (the body of
the `generateJava` loop). -/
def javaFileOf (context : ContextData) (options : CodeGenOptions)
    (p : String × NodeData) : GeneratedFile :=
  { filename := (javaFilePair context.nodes options p).2
    content := (javaFilePair context.nodes options p).1
    language := TargetLanguage.java }

/-- The file the C# backend produces for one node entry (the body of the
`generateCSharp` loop). -/
def csharpFileOf (context : ContextData) (options : CodeGenOptions)
    (p : String × NodeData) : GeneratedFile :=
  { filename := (csharpFilePair context.nodes options p).2
    content := (csharpFilePair context.nodes options p).1
    language := TargetLanguage.csharp }

/-- The enum with the payload of every variant erased. -/
def erasePayloads (n : EnumNode) : EnumNode :=
  { n with variants := n.variants.map (fun v => { v with payload := none }) }

/-- The meaning of the structural-equality conjunction both backends
render for a value object: under any per-field equality valuation `veq`,
two instances are equal exactly when every declared field compares
equal. -/
def structEqDenote (fields : List Field) (veq : String → Bool) : Bool :=
  fields.all (fun f => veq f.name)

/-- State-passing variant of `generateJava`: the loop threads the
context value through every iteration; the body only reads it, faithful
to the source which contains no write to `context`. -/
def generateJavaSt (context : ContextData) (options : CodeGenOptions) :
    List GeneratedFile × ContextData :=
  context.nodes.foldl (fun acc p =>
    (let result := javaFilePair acc.2.nodes options p
     if result.1 != "" && result.2 != "" then
       acc.1 ++ [{ filename := result.2, content := result.1, language := TargetLanguage.java }]
     else acc.1, acc.2)) ([], context)

/-- State-passing variant of `generateCSharp`. -/
def generateCSharpSt (context : ContextData) (options : CodeGenOptions) :
    List GeneratedFile × ContextData :=
  context.nodes.foldl (fun acc p =>
    (let result := csharpFilePair acc.2.nodes options p
     if result.1 != "" && result.2 != "" then
       acc.1 ++ [{ filename := result.2, content := result.1, language := TargetLanguage.csharp }]
     else acc.1, acc.2)) ([], context)

/-- State-passing variant of `generateTypeScript`: each of the four
emission loops threads the context; entity and aggregate generation read
the threaded context, as the source does. -/
def generateTypeScriptSt (now : String) (context : ContextData)
    (options : CodeGenOptions) : GeneratedFile × ContextData :=
  let a1 := context.nodes.foldl (fun acc p =>
    (acc.1 ++ tsEnumCase options p, acc.2)) (tsHeaderLines now context options, context)
  let a2 := context.nodes.foldl (fun acc p =>
    (acc.1 ++ tsValueCase options p, acc.2)) a1
  let a3 := context.nodes.foldl (fun acc p =>
    (acc.1 ++ tsEntityCase options acc.2 p, acc.2)) a2
  let a4 := context.nodes.foldl (fun acc p =>
    (acc.1 ++ tsAggregateCase options acc.2 p, acc.2)) a3
  ({ filename := removeWhitespace context.name ++ ".ts",
     content := jsTrim (joinNL a4.1),
     language := TargetLanguage.typescript }, a4.2)

/-- State-passing variant of `generateCode`. -/
def generateCodeSt (now : String) (context : ContextData) (language : TargetLanguage)
    (options : Option PartialCodeGenOptions) : List GeneratedFile × ContextData :=
  let defaultOptions := mergeOptions language options
  match language with
  | .typescript =>
    let r := generateTypeScriptSt now context defaultOptions
    ([r.1], r.2)
  | .java => generateJavaSt context defaultOptions
  | .csharp => generateCSharpSt context defaultOptions

/-- The documented error-code range of the morphism-reference pass. -/
def morphismErrorCodes : List String :=
  ["E0001", "E0002", "E0003", "E0004", "E0005", "E0006", "E0007", "E0008", "E0009"]

/-- The `Commerce` scenario of the spec: entities `Customer` and `Order`
and the misspelled morphism `placedBy: Order -> Custommer`. -/
def commerceContext : SpecContext :=
  { name := "Commerce"
    objectNames := ["Customer", "Order"]
    morphisms := [{ name := "placedBy", source := "Order", target := "Custommer" }] }

/-- A two-node context declaring the entity `Apple` before the enum
`Color`. -/
def demoContext : ContextData :=
  { id := "c1", name := "Demo", morphisms := []
    nodes :=
      [("n1", { node := DomainNode.entity { name := "Apple", fields := [] },
                position := { x := 0, y := 0 } }),
       ("n2", { node := DomainNode.enum
                  { name := "Color", variants := [{ id := "v1", name := "Red", payload := none }] },
                position := { x := 0, y := 0 } })] }

/-- TypeScript options with comments disabled and interface-only output. -/
def tsPlainOptions : CodeGenOptions :=
  { language := TargetLanguage.typescript, includeComments := false
    generateInterfaces := true, generateClasses := false
    namespaceName := none, packageName := none }

/-- Java options with comments disabled. -/
def javaPlainOptions : CodeGenOptions :=
  { language := TargetLanguage.java, includeComments := false
    generateInterfaces := true, generateClasses := true
    namespaceName := some "Domain", packageName := some "com.example.domain" }

/-- C# options with comments disabled. -/
def csharpPlainOptions : CodeGenOptions :=
  { language := TargetLanguage.csharp, includeComments := false
    generateInterfaces := true, generateClasses := true
    namespaceName := some "Domain", packageName := some "com.example.domain" }

/-- An enum with one payload-bearing variant (`Card` carrying
`CardInfo`) and one bare variant. -/
def paymentEnum : EnumNode :=
  { name := "Payment"
    variants :=
      [{ id := "v1", name := "Card", payload := some "CardInfo" },
       { id := "v2", name := "Cash", payload := none }] }

/-- An aggregate node whose root and single member both resolve in
`orderAggContext`. -/
def orderAggNode : AggregateNode :=
  { name := "Order", rootId := "e1", memberIds := ["e2"], invariants := [] }

/-- A context with entity `Order` (root), entity `LineItem` (member) and
the aggregate `Order` built from them. -/
def orderAggContext : ContextData :=
  { id := "c2", name := "Sales", morphisms := []
    nodes :=
      [("e1", { node := DomainNode.entity { name := "Order", fields := [] },
                position := { x := 0, y := 0 } }),
       ("e2", { node := DomainNode.entity { name := "LineItem", fields := [] },
                position := { x := 0, y := 0 } }),
       ("a1", { node := DomainNode.aggregate orderAggNode,
                position := { x := 0, y := 0 } })] }

/-- A sample value object with two required fields. -/
def moneyVO : ValueNode :=
  { name := "Money"
    fields :=
      [{ id := "f1", name := "amount", type := "double", optional := false },
       { id := "f2", name := "currency", type := "string", optional := false }] }

/-- Partial options overriding only `includeComments` to `false`. -/
def partialNoComments : PartialCodeGenOptions :=
  { includeComments := some false }

/-- A sample domain state holding one context map between two contexts
and one context with a morphism, used by the witnesses. -/
def sampleState : DomainState :=
  { activeContextId := some "c1"
    contexts :=
      [("c1", demoContext),
       ("c2", orderAggContext)]
    contextMaps :=
      [{ id := "m1", name := "demo-sales", sourceContextId := "c1",
         targetContextId := "c2", pattern := "Conformist" }]
    selectedNodeIds := ["n1", "e1"]
    selectedEdgeIds := []
    isPaletteOpen := true
    isPropertiesPanelOpen := true }

/-! ## Shared helper lemmas -/

/-- A string of positive length is not empty. -/
theorem ne_empty_of_length_pos {s : String} (h : 0 < s.length) : s ≠ "" := by
  intro he
  subst he
  simp at h

/-- Joining a line list whose head is nonempty yields a nonempty string. -/
theorem joinNL_cons_ne_empty (a : String) (l : List String) (ha : 0 < a.length) :
    joinNL (a :: l) ≠ "" := by
  apply ne_empty_of_length_pos
  cases l with
  | nil => simpa [joinNL, joinSep] using ha
  | cons b t =>
    have : joinNL (a :: b :: t) = a ++ "\n" ++ joinSep "\n" (b :: t) := rfl
    rw [this]
    simp [String.length_append]
    omega

/-- Threading a pair through a fold whose step never alters the second
component: the fold evaluates to the fold of the first component with
the constant second component. -/
theorem foldl_pair_eval {β γ δ : Type} (f : β × γ → δ → β × γ) (g : β × γ → δ → β)
    (h : ∀ acc p, f acc p = (g acc p, acc.2)) (l : List δ) (init : β × γ) :
    l.foldl f init = (l.foldl (fun b p => g (b, init.2) p) init.1, init.2) := by
  induction l generalizing init with
  | nil => exact Prod.mk.eta.symm
  | cons p t ih =>
    rw [List.foldl_cons, List.foldl_cons, h init p]
    exact ih _

/-- A fold that appends a block per element is the flat map of the block
function. -/
theorem foldl_append_flatMap {α β : Type} (f : α → List β) (l : List α) (init : List β) :
    l.foldl (fun acc a => acc ++ f a) init = init ++ l.flatMap f := by
  induction l generalizing init with
  | nil => simp
  | cons a t ih => simp [ih, List.append_assoc]

/-- Looking up the updated key returns the updated value. -/
theorem lookupAssoc_updateAssoc_self {α : Type} (l : List (String × α)) (k : String)
    (f : α → α) : lookupAssoc (updateAssoc l k f) k = (lookupAssoc l k).map f := by
  induction l with
  | nil => rfl
  | cons p t ih =>
    show lookupAssoc ((if p.1 = k then (p.1, f p.2) else p) :: updateAssoc t k f) k = _
    by_cases hp : p.1 = k
    · rw [if_pos hp]
      unfold lookupAssoc
      rw [List.find?_cons_of_pos _ (by simp [hp]), List.find?_cons_of_pos _ (by simp [hp])]
      rfl
    · rw [if_neg hp]
      unfold lookupAssoc
      rw [List.find?_cons_of_neg _ (by simp [hp]), List.find?_cons_of_neg _ (by simp [hp])]
      exact ih

/-- Looking up any other key is unaffected by the update. -/
theorem lookupAssoc_updateAssoc_other {α : Type} (l : List (String × α)) (k k' : String)
    (f : α → α) (h : k' ≠ k) :
    lookupAssoc (updateAssoc l k f) k' = lookupAssoc l k' := by
  induction l with
  | nil => rfl
  | cons p t ih =>
    show lookupAssoc ((if p.1 = k then (p.1, f p.2) else p) :: updateAssoc t k f) k' = _
    by_cases hp : p.1 = k
    · have hp' : ¬ (p.1 = k') := by rw [hp]; exact fun he => h he.symm
      rw [if_pos hp]
      unfold lookupAssoc
      rw [List.find?_cons_of_neg _ (by simp [hp']),
          List.find?_cons_of_neg _ (by simp [hp'])]
      exact ih
    · rw [if_neg hp]
      by_cases hp' : p.1 = k'
      · unfold lookupAssoc
        rw [List.find?_cons_of_pos _ (by simp [hp']), List.find?_cons_of_pos _ (by simp [hp'])]
      · unfold lookupAssoc
        rw [List.find?_cons_of_neg _ (by simp [hp']), List.find?_cons_of_neg _ (by simp [hp'])]
        exact ih

/-! ## C6 -/

/-- Claim C6: after `deleteContext contextId`, the state contains no
context map whose source or target context id equals the deleted
context's id. -/
theorem c6_deleteContext_purges_maps :
    ∀ (s : DomainState) (contextId : String),
      ∀ m ∈ (deleteContext s contextId).contextMaps,
        m.sourceContextId ≠ contextId ∧ m.targetContextId ≠ contextId := by
  intro s contextId m hm
  simp only [deleteContext, List.mem_filter, Bool.and_eq_true, bne_iff_ne] at hm
  exact hm.2

/-- Witness for C6: the surviving map of the sample state after deleting
the unrelated context `c3` references neither endpoint `c3`. -/
theorem c6_witness :
    ({ id := "m1", name := "demo-sales", sourceContextId := "c1",
       targetContextId := "c2", pattern := "Conformist" } : ContextMap).sourceContextId ≠ "c3" ∧
    ({ id := "m1", name := "demo-sales", sourceContextId := "c1",
       targetContextId := "c2", pattern := "Conformist" } : ContextMap).targetContextId ≠ "c3" :=
  c6_deleteContext_purges_maps sampleState "c3" _ (by decide)

/-! ## C10 -/

/-- Claim C10: after `deleteNode contextId nodeId`, the context holds
exactly its previous nodes minus the deleted entry and exactly its
previous morphisms minus those touching the node (so every other node
and morphism is unchanged and no surviving morphism references the
node), the node id is no longer selected, and all other contexts are
untouched. -/
theorem c10_deleteNode_cleanup :
    ∀ (s : DomainState) (contextId nodeId : String) (ctx : ContextData),
      lookupAssoc s.contexts contextId = some ctx →
      (lookupAssoc (deleteNode s contextId nodeId).contexts contextId =
        some { ctx with
               nodes := ctx.nodes.filter (fun p => p.1 != nodeId)
               morphisms := ctx.morphisms.filter (fun m =>
                 m.sourceId != nodeId && m.targetId != nodeId) }) ∧
      (∀ m ∈ ctx.morphisms.filter (fun m =>
          m.sourceId != nodeId && m.targetId != nodeId),
        m.sourceId ≠ nodeId ∧ m.targetId ≠ nodeId) ∧
      nodeId ∉ (deleteNode s contextId nodeId).selectedNodeIds ∧
      (∀ k, k ≠ contextId →
        lookupAssoc (deleteNode s contextId nodeId).contexts k =
          lookupAssoc s.contexts k) := by
  intro s contextId nodeId ctx h
  refine ⟨?_, ?_, ?_, ?_⟩
  · rw [deleteNode, h]
    rw [lookupAssoc_updateAssoc_self, h]
    rfl
  · intro m hm
    simp only [List.mem_filter, Bool.and_eq_true, bne_iff_ne] at hm
    exact hm.2
  · rw [deleteNode, h]
    simp only [List.mem_filter, bne_iff_ne]
    intro hmem
    exact hmem.2 rfl
  · intro k hk
    rw [deleteNode, h]
    simp only [lookupAssoc_updateAssoc_other _ _ _ _ hk]

/-- Witness for C10: deleting node `n1` of context `c1` in the sample
state removes it from the selection. -/
theorem c10_witness : "n1" ∉ (deleteNode sampleState "c1" "n1").selectedNodeIds :=
  (c10_deleteNode_cleanup sampleState "c1" "n1" demoContext (by decide)).2.2.1

/-! ## C9 -/

/-- The Java state-passing generator evaluates to the pure generator's
output paired with the untouched context. -/
theorem generateJavaSt_eval (context : ContextData) (o : CodeGenOptions) :
    generateJavaSt context o = (generateJava context o, context) := by
  suffices h : ∀ (l : List (String × NodeData)) (b : List GeneratedFile) (c : ContextData),
      (l.foldl (fun acc p =>
        (let result := javaFilePair acc.2.nodes o p
         if result.1 != "" && result.2 != "" then
           acc.1 ++ [{ filename := result.2, content := result.1, language := TargetLanguage.java }]
         else acc.1, acc.2)) (b, c)) =
      (l.foldl (fun files p =>
        let result := javaFilePair c.nodes o p
        if result.1 != "" && result.2 != "" then
          files ++ [{ filename := result.2, content := result.1, language := TargetLanguage.java }]
        else files) b, c) by
    exact h context.nodes [] context
  intro l
  induction l with
  | nil => intro b c; rfl
  | cons p t ih =>
    intro b c
    rw [List.foldl_cons, List.foldl_cons]
    exact ih _ c

/-- The C# state-passing generator evaluates to the pure generator's
output paired with the untouched context. -/
theorem generateCSharpSt_eval (context : ContextData) (o : CodeGenOptions) :
    generateCSharpSt context o = (generateCSharp context o, context) := by
  suffices h : ∀ (l : List (String × NodeData)) (b : List GeneratedFile) (c : ContextData),
      (l.foldl (fun acc p =>
        (let result := csharpFilePair acc.2.nodes o p
         if result.1 != "" && result.2 != "" then
           acc.1 ++ [{ filename := result.2, content := result.1, language := TargetLanguage.csharp }]
         else acc.1, acc.2)) (b, c)) =
      (l.foldl (fun files p =>
        let result := csharpFilePair c.nodes o p
        if result.1 != "" && result.2 != "" then
          files ++ [{ filename := result.2, content := result.1, language := TargetLanguage.csharp }]
        else files) b, c) by
    exact h context.nodes [] context
  intro l
  induction l with
  | nil => intro b c; rfl
  | cons p t ih =>
    intro b c
    rw [List.foldl_cons, List.foldl_cons]
    exact ih _ c

/-- The TypeScript state-passing generator evaluates to the pure
generator's output paired with the untouched context. -/
theorem generateTypeScriptSt_eval (now : String) (context : ContextData)
    (o : CodeGenOptions) :
    generateTypeScriptSt now context o = (generateTypeScript now context o, context) := by
  unfold generateTypeScriptSt generateTypeScript
  dsimp only
  rw [foldl_pair_eval _ (fun acc p => acc.1 ++ tsAggregateCase o acc.2 p) (fun acc p => rfl)]
  rw [foldl_pair_eval _ (fun acc p => acc.1 ++ tsEntityCase o acc.2 p) (fun acc p => rfl)]
  rw [foldl_pair_eval _ (fun acc p => acc.1 ++ tsValueCase o p) (fun acc p => rfl)]
  rw [foldl_pair_eval _ (fun acc p => acc.1 ++ tsEnumCase o p) (fun acc p => rfl)]
  dsimp only
  simp only [foldl_append_flatMap, List.append_assoc]

/-- Claim C9: every generator is a pure reader of its context — in the
state-passing embedding, running any backend returns the input context
unchanged, and its output coincides with the pure generator's output. -/
theorem c9_generators_leave_context_unchanged :
    ∀ (now : String) (context : ContextData) (language : TargetLanguage)
      (options : Option PartialCodeGenOptions),
      (generateCodeSt now context language options).2 = context ∧
      (generateCodeSt now context language options).1 =
        generateCode now context language options := by
  intro now context language options
  cases language with
  | java =>
    show (generateJavaSt context (mergeOptions TargetLanguage.java options)).2 = context ∧
      (generateJavaSt context (mergeOptions TargetLanguage.java options)).1 =
        generateJava context (mergeOptions TargetLanguage.java options)
    rw [generateJavaSt_eval]
    exact ⟨rfl, rfl⟩
  | csharp =>
    show (generateCSharpSt context (mergeOptions TargetLanguage.csharp options)).2 = context ∧
      (generateCSharpSt context (mergeOptions TargetLanguage.csharp options)).1 =
        generateCSharp context (mergeOptions TargetLanguage.csharp options)
    rw [generateCSharpSt_eval]
    exact ⟨rfl, rfl⟩
  | typescript =>
    show (generateTypeScriptSt now context (mergeOptions TargetLanguage.typescript options)).2 =
        context ∧
      [(generateTypeScriptSt now context (mergeOptions TargetLanguage.typescript options)).1] =
        [generateTypeScript now context (mergeOptions TargetLanguage.typescript options)]
    rw [generateTypeScriptSt_eval]
    exact ⟨rfl, rfl⟩

/-! ## C1 -/

/-- Counterexample to claim C1 as stated: with the default options
(comments on), two TypeScript generation runs at different clock
readings produce different output, because the file header embeds
`new Date().toISOString()`. -/
theorem c1_counterexample :
    generateCode "2026-01-01T00:00:00.000Z" demoContext TargetLanguage.typescript none ≠
    generateCode "2026-01-01T00:00:00.001Z" demoContext TargetLanguage.typescript none := by
  decide

/-- Claim C1 (amended): code generation is deterministic — byte-identical
across runs — for the Java and C# backends always, and for the
TypeScript backend whenever the merged options disable comments; only
the comment header of the TypeScript backend depends on the clock. -/
theorem c1_generation_deterministic :
    ∀ (now₁ now₂ : String) (context : ContextData) (language : TargetLanguage)
      (options : Option PartialCodeGenOptions),
      (language ≠ TargetLanguage.typescript ∨
        (mergeOptions language options).includeComments = false) →
      generateCode now₁ context language options = generateCode now₂ context language options := by
  intro now₁ now₂ context language options h
  cases language with
  | java => rfl
  | csharp => rfl
  | typescript =>
    rcases h with h | h
    · exact absurd rfl h
    · show [generateTypeScript now₁ context (mergeOptions TargetLanguage.typescript options)] =
        [generateTypeScript now₂ context (mergeOptions TargetLanguage.typescript options)]
      simp [generateTypeScript, tsHeaderLines, h]

/-- Witness for C1: with comments switched off, two runs at different
clock readings agree. -/
theorem c1_witness :
    generateCode "2026-01-01T00:00:00.000Z" demoContext TargetLanguage.typescript
        (some partialNoComments) =
      generateCode "2026-01-01T00:00:00.001Z" demoContext TargetLanguage.typescript
        (some partialNoComments) :=
  c1_generation_deterministic _ _ _ _ _ (Or.inr (by decide))

/-! ## C3 -/

/-- Counterexample to claim C3 as stated: for a payload-bearing enum, the
Java and C# fallbacks emit a plain enum with no separate payload field —
neither the payload type name nor any payload member appears in the
output. -/
theorem c3_counterexample :
    containsSub (joinNL (generateEnumJavaLines paymentEnum javaPlainOptions)) "CardInfo" = false ∧
    containsSub (joinNL (generateEnumJavaLines paymentEnum javaPlainOptions)) "payload" = false ∧
    containsSub (joinNL (generateEnumCSharpLines paymentEnum csharpPlainOptions)) "CardInfo" = false ∧
    containsSub (joinNL (generateEnumCSharpLines paymentEnum csharpPlainOptions)) "payload" = false := by
  decide

/-- Claim C3 (amended): the Java and C# backends degrade every enum to a
plain enum of its variant names, silently discarding payloads — the
output is a total, deterministic function that does not depend on the
payloads at all (and in particular contains no separate payload
field). -/
theorem c3_enum_fallback_payload_independent :
    ∀ (node : EnumNode) (options : CodeGenOptions),
      generateEnumJavaLines node options =
        generateEnumJavaLines (erasePayloads node) options ∧
      generateEnumCSharpLines node options =
        generateEnumCSharpLines (erasePayloads node) options := by
  intro node options
  have hj : ∀ vs : List EnumVariant,
      javaEnumVariantLines (vs.map (fun v => { v with payload := none })) =
        javaEnumVariantLines vs := by
    intro vs
    induction vs with
    | nil => rfl
    | cons v t ih =>
      cases t with
      | nil => rfl
      | cons w u =>
        show ("    " ++ strToUpper v.name ++ ",") ::
            javaEnumVariantLines ((w :: u).map (fun v => { v with payload := none })) =
          ("    " ++ strToUpper v.name ++ ",") :: javaEnumVariantLines (w :: u)
        exact congrArg _ ih
  have hc : ∀ vs : List EnumVariant,
      csharpEnumVariantLines (vs.map (fun v => { v with payload := none })) =
        csharpEnumVariantLines vs := by
    intro vs
    induction vs with
    | nil => rfl
    | cons v t ih =>
      cases t with
      | nil => rfl
      | cons w u =>
        show ("    " ++ v.name ++ ",") ::
            csharpEnumVariantLines ((w :: u).map (fun v => { v with payload := none })) =
          ("    " ++ v.name ++ ",") :: csharpEnumVariantLines (w :: u)
        exact congrArg _ ih
  constructor
  · show generateEnumJavaLines node options =
      generateEnumJavaLines (erasePayloads node) options
    unfold generateEnumJavaLines erasePayloads
    dsimp only
    rw [hj]
  · unfold generateEnumCSharpLines erasePayloads
    dsimp only
    rw [hc]

/-! ## C4 -/

/-- Claim C4: the TypeScript backend emits a discriminated union exactly
when some variant carries a (truthy, i.e. present and non-empty) payload
— each variant becoming a case with its payload type — and a simple
enum when no variant does. -/
theorem c4_ts_enum_tagged_union_iff :
    ∀ (node : EnumNode) (options : CodeGenOptions),
      generateEnumTSLines node options =
        (if options.includeComments then ["/**", " * Enum: " ++ node.name, " */"] else []) ++
        (if ∃ v ∈ node.variants, payloadTruthy v = true then
          ["export type " ++ node.name ++ " ="] ++ tsUnionVariantLines node.variants
         else
          ["export enum " ++ node.name ++ " \x7b"] ++ tsSimpleVariantLines node.variants ++
            ["\x7d"]) := by
  intro node options
  unfold generateEnumTSLines
  congr 1
  by_cases h : ∃ v ∈ node.variants, payloadTruthy v = true
  · rw [if_pos (List.any_eq_true.mpr (by simpa using h)), if_pos h]
  · rw [if_neg (fun hb => h (by simpa using List.any_eq_true.mp hb)), if_neg h]

/-! ## C2 -/

/-- A string with a nonempty left part is nonempty. -/
theorem append3_ne_empty (a b c : String) (ha : 0 < a.length) : a ++ b ++ c ≠ "" := by
  apply ne_empty_of_length_pos
  rw [String.length_append, String.length_append]
  omega

/-- A string with a nonempty right part is nonempty. -/
theorem append_right_ne_empty (a b : String) (hb : 0 < b.length) : a ++ b ≠ "" := by
  apply ne_empty_of_length_pos
  rw [String.length_append]
  omega

/-- Both components of the Java per-node pair are nonempty: the content
always starts with a `package` line, the filename always ends in
`.java`. -/
theorem javaFilePair_ne_empty (nodes : List (String × NodeData)) (o : CodeGenOptions)
    (p : String × NodeData) :
    (javaFilePair nodes o p).1 ≠ "" ∧ (javaFilePair nodes o p).2 ≠ "" := by
  unfold javaFilePair
  cases hp : p.2.node with
  | entity n =>
    exact ⟨joinNL_cons_ne_empty _ _ (by
        rw [String.length_append, String.length_append]
        have h8 : ("package ").length = 8 := rfl
        omega),
      append_right_ne_empty n.name ".java" (by decide)⟩
  | value n =>
    exact ⟨joinNL_cons_ne_empty _ _ (by
        rw [String.length_append, String.length_append]
        have h8 : ("package ").length = 8 := rfl
        omega),
      append_right_ne_empty n.name ".java" (by decide)⟩
  | enum n =>
    exact ⟨joinNL_cons_ne_empty _ _ (by
        rw [String.length_append, String.length_append]
        have h8 : ("package ").length = 8 := rfl
        omega),
      append_right_ne_empty n.name ".java" (by decide)⟩
  | aggregate n =>
    exact ⟨joinNL_cons_ne_empty _ _ (by
        rw [String.length_append, String.length_append]
        have h8 : ("package ").length = 8 := rfl
        omega),
      append_right_ne_empty n.name "Aggregate.java" (by decide)⟩

/-- Both components of the C# per-node pair are nonempty. -/
theorem csharpFilePair_ne_empty (nodes : List (String × NodeData)) (o : CodeGenOptions)
    (p : String × NodeData) :
    (csharpFilePair nodes o p).1 ≠ "" ∧ (csharpFilePair nodes o p).2 ≠ "" := by
  unfold csharpFilePair
  cases hp : p.2.node with
  | entity n =>
    exact ⟨joinNL_cons_ne_empty _ _ (by
        rw [String.length_append, String.length_append]
        have h10 : ("namespace ").length = 10 := rfl
        omega),
      append_right_ne_empty n.name ".cs" (by decide)⟩
  | value n =>
    exact ⟨joinNL_cons_ne_empty _ _ (by
        rw [String.length_append, String.length_append]
        have h10 : ("namespace ").length = 10 := rfl
        omega),
      append_right_ne_empty n.name ".cs" (by decide)⟩
  | enum n =>
    exact ⟨joinNL_cons_ne_empty _ _ (by
        rw [String.length_append, String.length_append]
        have h10 : ("namespace ").length = 10 := rfl
        omega),
      append_right_ne_empty n.name ".cs" (by decide)⟩
  | aggregate n =>
    exact ⟨joinNL_cons_ne_empty _ _ (by
        rw [String.length_append, String.length_append]
        have h10 : ("namespace ").length = 10 := rfl
        omega),
      append_right_ne_empty n.name "Aggregate.cs" (by decide)⟩

/-- The Java backend emits exactly one file per node, in node order. -/
theorem generateJava_eq_map (context : ContextData) (o : CodeGenOptions) :
    generateJava context o = context.nodes.map (javaFileOf context o) := by
  unfold generateJava
  suffices h : ∀ (l : List (String × NodeData)) (b : List GeneratedFile),
      l.foldl (fun files p =>
        let result := javaFilePair context.nodes o p
        if result.1 != "" && result.2 != "" then
          files ++ [{ filename := result.2, content := result.1, language := TargetLanguage.java }]
        else files) b = b ++ l.map (javaFileOf context o) by
    simpa using h context.nodes []
  intro l
  induction l with
  | nil => intro b; simp
  | cons p t ih =>
    intro b
    simp only [List.foldl_cons, List.map_cons]
    have hne := javaFilePair_ne_empty context.nodes o p
    have hcond : ((javaFilePair context.nodes o p).1 != "" &&
        (javaFilePair context.nodes o p).2 != "") = true := by
      simp [bne_iff_ne, hne.1, hne.2]
    rw [if_pos hcond, ih]
    simp [javaFileOf, List.append_assoc]

/-- The C# backend emits exactly one file per node, in node order. -/
theorem generateCSharp_eq_map (context : ContextData) (o : CodeGenOptions) :
    generateCSharp context o = context.nodes.map (csharpFileOf context o) := by
  unfold generateCSharp
  suffices h : ∀ (l : List (String × NodeData)) (b : List GeneratedFile),
      l.foldl (fun files p =>
        let result := csharpFilePair context.nodes o p
        if result.1 != "" && result.2 != "" then
          files ++ [{ filename := result.2, content := result.1, language := TargetLanguage.csharp }]
        else files) b = b ++ l.map (csharpFileOf context o) by
    simpa using h context.nodes []
  intro l
  induction l with
  | nil => intro b; simp
  | cons p t ih =>
    intro b
    simp only [List.foldl_cons, List.map_cons]
    have hne := csharpFilePair_ne_empty context.nodes o p
    have hcond : ((csharpFilePair context.nodes o p).1 != "" &&
        (csharpFilePair context.nodes o p).2 != "") = true := by
      simp [bne_iff_ne, hne.1, hne.2]
    rw [if_pos hcond, ih]
    simp [csharpFileOf, List.append_assoc]

/-- A flat map is unchanged by first filtering with a predicate outside
of which the block function vanishes. -/
theorem flatMap_filter_vanish {α β : Type} (p : α → Bool) (f : α → List β)
    (h : ∀ a, p a = false → f a = []) :
    ∀ l : List α, l.flatMap f = (l.filter p).flatMap f := by
  intro l
  induction l with
  | nil => rfl
  | cons a t ih =>
    cases hp : p a with
    | true => simp [List.filter_cons, hp, List.flatMap_cons, ih]
    | false => simp [List.filter_cons, hp, h a hp, List.flatMap_cons, ih]

/-- Congruence for flat maps over a common list. -/
theorem flatMap_congr_mem {α β : Type} {f g : α → List β} :
    ∀ l : List α, (∀ a ∈ l, f a = g a) → l.flatMap f = l.flatMap g := by
  intro l
  induction l with
  | nil => intro _; rfl
  | cons a t ih =>
    intro h
    simp only [List.flatMap_cons]
    rw [h a (List.mem_cons_self a t), ih (fun x hx => h x (List.mem_cons_of_mem a hx))]

/-- Counterexample to claim C2 as stated: in `demoContext` the entity
`Apple` is declared before the enum `Color`, yet the TypeScript output
places `Color`'s code (index 12) before `Apple`'s (index 54). -/
theorem c2_counterexample :
    demoContext.nodes.map (fun p => p.2.node.name) = ["Apple", "Color"] ∧
    idxOfSub (generateTypeScript "T0" demoContext tsPlainOptions).content "Color" = some 12 ∧
    idxOfSub (generateTypeScript "T0" demoContext tsPlainOptions).content "Apple" = some 54 := by
  decide

/-- Claim C2 (amended): the Java and C# backends emit one file per node
in declaration order (the i-th output file is generated from the i-th
node entry); the TypeScript backend instead renders the declaration list
stably regrouped by kind — enums, then value objects, then entities,
then aggregates — preserving declaration order only within each kind. -/
theorem c2_backend_emission_order :
    (∀ (context : ContextData) (options : CodeGenOptions) (i : Nat),
      (generateJava context options)[i]? =
        (context.nodes[i]?).map (javaFileOf context options)) ∧
    (∀ (context : ContextData) (options : CodeGenOptions) (i : Nat),
      (generateCSharp context options)[i]? =
        (context.nodes[i]?).map (csharpFileOf context options)) ∧
    (∀ (now : String) (context : ContextData) (options : CodeGenOptions),
      generateTypeScript now context options =
        { filename := removeWhitespace context.name ++ ".ts"
          content := jsTrim (joinNL (tsHeaderLines now context options ++
            (tsKindGrouped context.nodes).flatMap (tsDispatchBlock context options)))
          language := TargetLanguage.typescript }) := by
  refine ⟨?_, ?_, ?_⟩
  · intro context options i
    rw [generateJava_eq_map, List.getElem?_map]
  · intro context options i
    rw [generateCSharp_eq_map, List.getElem?_map]
  · intro now context options
    have he : context.nodes.flatMap (tsEnumCase options) =
        (context.nodes.filter (fun p => p.2.node.isEnumKind)).flatMap
          (tsDispatchBlock context options) := by
      rw [flatMap_filter_vanish (fun p => p.2.node.isEnumKind) (tsEnumCase options)
        (fun a ha => by
          unfold tsEnumCase
          cases hn : a.2.node <;> simp_all [DomainNode.isEnumKind])]
      exact flatMap_congr_mem _ (fun a ha => by
        have := (List.mem_filter.mp ha).2
        unfold tsEnumCase tsDispatchBlock
        cases hn : a.2.node <;> simp_all [DomainNode.isEnumKind, tsEnumCase])
    have hv : context.nodes.flatMap (tsValueCase options) =
        (context.nodes.filter (fun p => p.2.node.isValueKind)).flatMap
          (tsDispatchBlock context options) := by
      rw [flatMap_filter_vanish (fun p => p.2.node.isValueKind) (tsValueCase options)
        (fun a ha => by
          unfold tsValueCase
          cases hn : a.2.node <;> simp_all [DomainNode.isValueKind])]
      exact flatMap_congr_mem _ (fun a ha => by
        have := (List.mem_filter.mp ha).2
        unfold tsValueCase tsDispatchBlock
        cases hn : a.2.node <;> simp_all [DomainNode.isValueKind, tsValueCase])
    have hn : context.nodes.flatMap (tsEntityCase options context) =
        (context.nodes.filter (fun p => p.2.node.isEntityKind)).flatMap
          (tsDispatchBlock context options) := by
      rw [flatMap_filter_vanish (fun p => p.2.node.isEntityKind) (tsEntityCase options context)
        (fun a ha => by
          unfold tsEntityCase
          cases hn : a.2.node <;> simp_all [DomainNode.isEntityKind])]
      exact flatMap_congr_mem _ (fun a ha => by
        have := (List.mem_filter.mp ha).2
        unfold tsEntityCase tsDispatchBlock
        cases hn : a.2.node <;> simp_all [DomainNode.isEntityKind, tsEntityCase])
    have hg : context.nodes.flatMap (tsAggregateCase options context) =
        (context.nodes.filter (fun p => p.2.node.isAggregateKind)).flatMap
          (tsDispatchBlock context options) := by
      rw [flatMap_filter_vanish (fun p => p.2.node.isAggregateKind)
        (tsAggregateCase options context)
        (fun a ha => by
          unfold tsAggregateCase
          cases hn : a.2.node <;> simp_all [DomainNode.isAggregateKind])]
      exact flatMap_congr_mem _ (fun a ha => by
        have := (List.mem_filter.mp ha).2
        unfold tsAggregateCase tsDispatchBlock
        cases hn : a.2.node <;> simp_all [DomainNode.isAggregateKind, tsAggregateCase])
    unfold generateTypeScript tsKindGrouped
    dsimp only
    rw [List.flatMap_append, List.flatMap_append, List.flatMap_append]
    rw [← he, ← hv, ← hn, ← hg]
    simp [List.append_assoc]

/-! ## C5 -/

/-- Characterization of the nearest-candidate scan: when it returns a
candidate, that candidate's distance is minimal among all candidates, at
most the threshold, and every strictly earlier candidate is strictly
farther (first occurrence wins ties); when it returns nothing, every
candidate is beyond the threshold. -/
theorem nearestAux_spec (name : String) :
    ∀ (cands : List String),
      (match nearestAux name cands with
       | none => ∀ c ∈ cands, suggestThreshold name < levDist name c
       | some (b, bd) =>
           bd = levDist name b ∧ bd ≤ suggestThreshold name ∧
           (∀ c ∈ cands, bd ≤ levDist name c) ∧
           ∃ l₁ l₂, cands = l₁ ++ b :: l₂ ∧ ∀ c ∈ l₁, bd < levDist name c) := by
  intro cands
  induction cands with
  | nil => simp [nearestAux]
  | cons c rest ih =>
    by_cases hd : levDist name c ≤ suggestThreshold name
    · cases hr : nearestAux name rest with
      | none =>
        rw [hr] at ih
        have ih' : ∀ x ∈ rest, suggestThreshold name < levDist name x := ih
        have hstep : nearestAux name (c :: rest) = some (c, levDist name c) := by
          simp only [nearestAux]
          rw [hr]
          simp [hd]
        rw [hstep]
        refine ⟨rfl, hd, ?_, ⟨[], rest, rfl, ?_⟩⟩
        · intro x hx
          rcases List.mem_cons.mp hx with h | h
          · subst h; exact le_rfl
          · exact le_trans hd (le_of_lt (ih' x h))
        · intro x hx
          exact absurd hx (List.not_mem_nil x)
      | some q =>
        obtain ⟨b, bd⟩ := q
        rw [hr] at ih
        have ih' : bd = levDist name b ∧ bd ≤ suggestThreshold name ∧
            (∀ x ∈ rest, bd ≤ levDist name x) ∧
            ∃ l₁ l₂, rest = l₁ ++ b :: l₂ ∧ ∀ x ∈ l₁, bd < levDist name x := ih
        obtain ⟨hb, hthr, hmin, l₁, l₂, hsplit, hstrict⟩ := ih'
        by_cases hbd : bd < levDist name c
        · have hstep : nearestAux name (c :: rest) = some (b, bd) := by
            simp only [nearestAux]
            rw [hr]
            simp [hd, hbd]
          rw [hstep]
          refine ⟨hb, hthr, ?_, ⟨c :: l₁, l₂, by rw [hsplit]; rfl, ?_⟩⟩
          · intro x hx
            rcases List.mem_cons.mp hx with h | h
            · subst h; exact le_of_lt hbd
            · exact hmin x h
          · intro x hx
            rcases List.mem_cons.mp hx with h | h
            · subst h; exact hbd
            · exact hstrict x h
        · have hstep : nearestAux name (c :: rest) = some (c, levDist name c) := by
            simp only [nearestAux]
            rw [hr]
            simp [hd, hbd]
          rw [hstep]
          have hdb : levDist name c ≤ bd := Nat.le_of_not_lt hbd
          refine ⟨rfl, hd, ?_, ⟨[], rest, rfl, ?_⟩⟩
          · intro x hx
            rcases List.mem_cons.mp hx with h | h
            · subst h; exact le_rfl
            · exact le_trans hdb (hmin x h)
          · intro x hx
            exact absurd hx (List.not_mem_nil x)
    · cases hr : nearestAux name rest with
      | none =>
        rw [hr] at ih
        have ih' : ∀ x ∈ rest, suggestThreshold name < levDist name x := ih
        have hstep : nearestAux name (c :: rest) = none := by
          simp only [nearestAux]
          rw [hr]
          simp [hd]
        rw [hstep]
        intro x hx
        rcases List.mem_cons.mp hx with h | h
        · subst h; exact Nat.lt_of_not_le hd
        · exact ih' x h
      | some q =>
        obtain ⟨b, bd⟩ := q
        rw [hr] at ih
        have ih' : bd = levDist name b ∧ bd ≤ suggestThreshold name ∧
            (∀ x ∈ rest, bd ≤ levDist name x) ∧
            ∃ l₁ l₂, rest = l₁ ++ b :: l₂ ∧ ∀ x ∈ l₁, bd < levDist name x := ih
        obtain ⟨hb, hthr, hmin, l₁, l₂, hsplit, hstrict⟩ := ih'
        have hstep : nearestAux name (c :: rest) = some (b, bd) := by
          simp only [nearestAux]
          rw [hr]
          simp [hd]
        rw [hstep]
        have hcd : suggestThreshold name < levDist name c := Nat.lt_of_not_le hd
        refine ⟨hb, hthr, ?_, ⟨c :: l₁, l₂, by rw [hsplit]; rfl, ?_⟩⟩
        · intro x hx
          rcases List.mem_cons.mp hx with h | h
          · subst h; exact le_of_lt (lt_of_le_of_lt hthr hcd)
          · exact hmin x h
        · intro x hx
          rcases List.mem_cons.mp hx with h | h
          · subst h; exact lt_of_le_of_lt hthr hcd
          · exact hstrict x h

/-- Claim C5: on the `Commerce` scenario the modelled validator produces
exactly one Error diagnostic, with code `E0001` (in the E0001–E0009
morphism-reference range), a message naming `Custommer`, and the
suggestion `Customer`; and in general the nearest-name lookup returns
the single closest candidate by Levenshtein distance — ties broken by
first occurrence in insertion order — only when that distance is at most
`min(3, ceil(0.3 × len(name)))` (`suggestThreshold`). -/
theorem c5_validator_nearest_suggestion :
    (validateModel commerceContext =
      { valid := false, error_count := 1, warning_count := 0,
        issues := [{ severity := Severity.error, code := "E0001",
                     message := "Unknown object referenced in morphism: Custommer",
                     context := some "Commerce",
                     suggestion := some "Customer" }] } ∧
     "E0001" ∈ morphismErrorCodes ∧
     containsSub "Unknown object referenced in morphism: Custommer" "Custommer" = true) ∧
    (∀ (name : String) (cands : List String),
      match nearestAux name cands with
      | none => ∀ c ∈ cands, suggestThreshold name < levDist name c
      | some (b, bd) =>
          bd = levDist name b ∧ bd ≤ suggestThreshold name ∧
          (∀ c ∈ cands, bd ≤ levDist name c) ∧
          ∃ l₁ l₂, cands = l₁ ++ b :: l₂ ∧ ∀ c ∈ l₁, bd < levDist name c) :=
  ⟨⟨by decide, by decide, by decide⟩, fun name cands => nearestAux_spec name cands⟩

/-- Witness for C5: the scenario conclusion read off the theorem. -/
theorem c5_witness : (validateModel commerceContext).error_count = 1 := by
  rw [c5_validator_nearest_suggestion.1.1]

/-! ## C7 -/

/-- A string that starts with a chunk that is not a prefix of `t` cannot
equal `t`. -/
theorem append_ne_of_prefix_mismatch (a x t : String)
    (h : a.data.isPrefixOf t.data = false) : a ++ x ≠ t := by
  intro he
  have hp : a.data.isPrefixOf (a ++ x).data = true := by
    rw [String.data_append]
    exact List.isPrefixOf_iff_prefix.mpr (List.prefix_append _ _)
  rw [he, h] at hp
  exact Bool.false_ne_true hp

/-- Claim C7: for every value-object node, the generated equality is
structural — the TypeScript `equals` body and the Java `equals` body
return the conjunction of one per-declared-field comparison (`true` for
zero fields), the C# output is exactly a positional record over the
declared fields, no identity field is synthesized (the Java value object
contains no `private final UUID id;` line unless a declared field spells
that very line), and the rendered conjunction holds exactly when every
corresponding field compares equal. -/
theorem c7_value_object_structural_equality :
    ∀ (node : ValueNode) (options : CodeGenOptions),
      (options.generateClasses = true →
        ("    return " ++ tsEqualsCondition node.fields ++ ";") ∈
          generateValueObjectTSLines node options) ∧
      (("        return " ++ javaEqualsCondition node.fields ++ ";") ∈
        generateValueObjectJavaLines node options) ∧
      ((∀ f ∈ node.fields,
          "    private final " ++ mapTypeToJava f.type ++ " " ++ f.name ++ ";" ≠
            "    private final UUID id;") →
        "    private final UUID id;" ∉ generateValueObjectJavaLines node options) ∧
      (generateValueObjectCSharpLines node options =
        ["namespace " ++ jsOrDefault options.namespaceName "Domain" ++ ";", ""] ++
        (if options.includeComments then
          ["/// <summary>", "/// Value Object: " ++ node.name,
           "/// An immutable value type identified by its attributes", "/// </summary>"]
         else []) ++
        ["public record " ++ node.name ++ "(" ++
          joinSep ", " (node.fields.map (fun f =>
            mapTypeToCSharp f.type ++ (if f.optional then "?" else "") ++ " " ++
              capitalize f.name)) ++ ");"]) ∧
      (∀ veq : String → Bool,
        structEqDenote node.fields veq = true ↔ ∀ f ∈ node.fields, veq f.name = true) := by
  intro node options
  refine ⟨?_, ?_, ?_, rfl, ?_⟩
  · intro hcl
    simp [generateValueObjectTSLines, hcl]
  · simp [generateValueObjectJavaLines]
  · intro hyp hmem
    cases hcm : options.includeComments with
    | true =>
      simp only [generateValueObjectJavaLines, hcm, if_true, List.mem_append, List.mem_cons,
        List.mem_map, List.mem_flatMap, List.mem_singleton, List.not_mem_nil, or_false,
        false_or, or_assoc] at hmem
      rcases hmem with h|h|h|h|h|h|h|h|h|h|h|h|h|h|h|h|h|h|h|h|h|h|h|h|h|h|h|h|h|h <;>
        first
          | exact absurd h (by decide)
          | exact absurd h.symm (by decide)
          | exact absurd h.symm
              (by try simp only [String.append_assoc]
                  exact append_ne_of_prefix_mismatch _ _ _ (by decide))
          | (obtain ⟨f, hf, he⟩ := h
             exact hyp f hf he)
          | (obtain ⟨f, hf, he⟩ := h
             exact absurd he
               (by try simp only [String.append_assoc]
                   exact append_ne_of_prefix_mismatch _ _ _ (by decide)))
          | (obtain ⟨f, hf, he⟩ := h
             rcases he with he | he | he | he <;>
               first
                 | exact absurd he (by decide)
                 | exact absurd he.symm (by decide)
                 | exact absurd he.symm
                     (by try simp only [String.append_assoc]
                         exact append_ne_of_prefix_mismatch _ _ _ (by decide)))
    | false =>
      simp only [generateValueObjectJavaLines, hcm, Bool.false_eq_true, if_false,
        List.mem_append, List.mem_cons,
        List.mem_map, List.mem_flatMap, List.mem_singleton, List.not_mem_nil, or_false,
        false_or, or_assoc] at hmem
      rcases hmem with h|h|h|h|h|h|h|h|h|h|h|h|h|h|h|h|h|h|h|h|h|h|h|h|h|h <;>
        first
          | exact absurd h (by decide)
          | exact absurd h.symm (by decide)
          | exact absurd h.symm
              (by try simp only [String.append_assoc]
                  exact append_ne_of_prefix_mismatch _ _ _ (by decide))
          | (obtain ⟨f, hf, he⟩ := h
             exact hyp f hf he)
          | (obtain ⟨f, hf, he⟩ := h
             exact absurd he
               (by try simp only [String.append_assoc]
                   exact append_ne_of_prefix_mismatch _ _ _ (by decide)))
          | (obtain ⟨f, hf, he⟩ := h
             rcases he with he | he | he | he <;>
               first
                 | exact absurd he (by decide)
                 | exact absurd he.symm (by decide)
                 | exact absurd he.symm
                     (by try simp only [String.append_assoc]
                         exact append_ne_of_prefix_mismatch _ _ _ (by decide)))
  · intro veq
    simp [structEqDenote, List.all_eq_true]

/-- Witness for C7: the sample value object `Money` under the plain Java
options synthesizes no identity field. -/
theorem c7_witness :
    "    private final UUID id;" ∉ generateValueObjectJavaLines moneyVO javaPlainOptions :=
  (c7_value_object_structural_equality moneyVO javaPlainOptions).2.2.1 (by decide)

/-! ## C8 -/

set_option maxRecDepth 8000 in
/-- Counterexample to claim C8 as stated: for the sample aggregate the
Java backend synthesizes an `add` but no remove operation of any kind,
and the TypeScript backend synthesizes neither; only the C# backend has
both `Add` and `Remove`. -/
theorem c8_counterexample :
    containsSub (joinNL (generateAggregateJavaLines orderAggNode orderAggContext.nodes
      javaPlainOptions)) "addLineItem" = true ∧
    containsSub (joinNL (generateAggregateJavaLines orderAggNode orderAggContext.nodes
      javaPlainOptions)) "remove" = false ∧
    containsSub (joinNL (generateAggregateJavaLines orderAggNode orderAggContext.nodes
      javaPlainOptions)) "Remove" = false ∧
    containsSub (joinNL (generateAggregateTSLines orderAggNode orderAggContext.nodes
      tsPlainOptions)) "add" = false ∧
    containsSub (joinNL (generateAggregateTSLines orderAggNode orderAggContext.nodes
      tsPlainOptions)) "remove" = false ∧
    containsSub (joinNL (generateAggregateCSharpLines orderAggNode orderAggContext.nodes
      csharpPlainOptions)) "AddLineItem" = true ∧
    containsSub (joinNL (generateAggregateCSharpLines orderAggNode orderAggContext.nodes
      csharpPlainOptions)) "RemoveLineItem" = true := by
  decide

set_option maxRecDepth 8000 in
/-- Claim C8 (amended): every backend's generated aggregate contains the
root (when it resolves) and one collection field per resolved member,
but the synthesized mutators differ per backend: the TypeScript output
is exactly a plain interface with no operations at all, the Java output
synthesizes an `add` mutator (and a copying getter) per member but no
remove, and the C# output synthesizes both an `Add` and a `Remove`
mutator per member. -/
theorem c8_aggregate_member_ops :
    ∀ (node : AggregateNode) (nodes : List (String × NodeData)) (options : CodeGenOptions),
      (generateAggregateTSLines node nodes options =
        (if options.includeComments then
          ["/**", " * Aggregate: " ++ node.name] ++
          (match findNode nodes node.rootId with
           | some rn => [" * Root Entity: " ++ rn.name]
           | none => []) ++
          (if node.invariants.length > 0 then
            [" * ", " * Invariants:"] ++ node.invariants.map (fun inv => " * - " ++ inv)
           else []) ++ [" */"]
         else []) ++
        ["export interface " ++ node.name ++ "Aggregate \x7b"] ++
        (match findNode nodes node.rootId with
         | some rn => ["  root: " ++ rn.name ++ ";"]
         | none => []) ++
        ((node.memberIds.filterMap (findNode nodes)).map (fun member =>
          "  " ++ strToLower member.name ++ "s: " ++ member.name ++ "[];")) ++
        ["\x7d"]) ∧
      (∀ r, findNode nodes node.rootId = some r →
        ("    private final " ++ r.name ++ " root;") ∈
          generateAggregateJavaLines node nodes options) ∧
      (∀ mid m, mid ∈ node.memberIds → findNode nodes mid = some m →
        ("    private final List<" ++ m.name ++ "> " ++ strToLower m.name ++ "s;") ∈
          generateAggregateJavaLines node nodes options ∧
        ("    public void add" ++ m.name ++ "(" ++ m.name ++ " item) \x7b") ∈
          generateAggregateJavaLines node nodes options) ∧
      (∀ mid m, mid ∈ node.memberIds → findNode nodes mid = some m →
        ("    private readonly List<" ++ m.name ++ "> _" ++ strToLower m.name ++
            "s = new();") ∈ generateAggregateCSharpLines node nodes options ∧
        ("    public void Add" ++ m.name ++ "(" ++ m.name ++ " item)") ∈
          generateAggregateCSharpLines node nodes options ∧
        ("    public bool Remove" ++ m.name ++ "(" ++ m.name ++ " item)") ∈
          generateAggregateCSharpLines node nodes options) := by
  intro node nodes options
  refine ⟨rfl, ?_, ?_, ?_⟩
  · intro r hr
    show _ ∈ generateAggregateJavaLines node nodes options
    unfold generateAggregateJavaLines
    refine List.mem_append_left _ (List.mem_append_left _ (List.mem_append_left _
      (List.mem_append_left _ (List.mem_append_left _ (List.mem_append_left _
        (List.mem_append_left _ (List.mem_append_left _ (List.mem_append_right _ ?_))))))))
    rw [hr]
    simp
  · intro mid m hmid hfind
    constructor
    · show _ ∈ generateAggregateJavaLines node nodes options
      unfold generateAggregateJavaLines
      refine List.mem_append_left _ (List.mem_append_left _ (List.mem_append_left _
        (List.mem_append_left _ (List.mem_append_left _ (List.mem_append_left _
          (List.mem_append_left _ (List.mem_append_right _ ?_)))))))
      exact List.mem_filterMap.mpr ⟨mid, hmid, by rw [hfind]; rfl⟩
    · show _ ∈ generateAggregateJavaLines node nodes options
      unfold generateAggregateJavaLines
      refine List.mem_append_left _ (List.mem_append_right _ ?_)
      refine List.mem_flatMap.mpr ⟨mid, hmid, ?_⟩
      rw [hfind]
      simp
  · intro mid m hmid hfind
    refine ⟨?_, ?_, ?_⟩
    · show _ ∈ generateAggregateCSharpLines node nodes options
      unfold generateAggregateCSharpLines
      refine List.mem_append_left _ (List.mem_append_left _ (List.mem_append_left _
        (List.mem_append_left _ (List.mem_append_left _ (List.mem_append_right _ ?_)))))
      exact List.mem_filterMap.mpr ⟨mid, hmid, by rw [hfind]; rfl⟩
    · show _ ∈ generateAggregateCSharpLines node nodes options
      unfold generateAggregateCSharpLines
      refine List.mem_append_left _ (List.mem_append_right _ ?_)
      refine List.mem_flatMap.mpr ⟨mid, hmid, ?_⟩
      rw [hfind]
      simp
    · show _ ∈ generateAggregateCSharpLines node nodes options
      unfold generateAggregateCSharpLines
      refine List.mem_append_left _ (List.mem_append_right _ ?_)
      refine List.mem_flatMap.mpr ⟨mid, hmid, ?_⟩
      rw [hfind]
      simp

/-- Witness for C8: for the sample aggregate, the Java backend emits the
`add` mutator for the resolved member `LineItem` and the C# backend
emits the `Remove` mutator. -/
theorem c8_witness :
    ("    public void addLineItem(LineItem item) \x7b") ∈
      generateAggregateJavaLines orderAggNode orderAggContext.nodes javaPlainOptions ∧
    ("    public bool RemoveLineItem(LineItem item)") ∈
      generateAggregateCSharpLines orderAggNode orderAggContext.nodes csharpPlainOptions :=
  ⟨((c8_aggregate_member_ops orderAggNode orderAggContext.nodes javaPlainOptions).2.2.1
      "e2" (DomainNode.entity { name := "LineItem", fields := [] })
      (by decide) (by decide)).2,
   ((c8_aggregate_member_ops orderAggNode orderAggContext.nodes csharpPlainOptions).2.2.2
      "e2" (DomainNode.entity { name := "LineItem", fields := [] })
      (by decide) (by decide)).2.2⟩

end SketchDDD
